import Mathlib

/-!
Verification of the epublib reader pipeline (`epublib/reader.py`).

The Python source is shallowly embedded: byte payloads are modelled as
`String` (the `decode` step of the source is the identity on this model),
archive streams as lists of entries, Python dicts as insertion-ordered
association lists with the Python update-in-place semantics, and the two
external collaborators — the lenient XML parser (`parse_as_etree` via lxml)
and the `html2text` converter — as explicit function parameters
(`parse : String → XmlTree`, `h2t : String → String`).  Exceptions become
an `Except EpubError` result: `MalformedEpubException msg` is
`.malformed msg` and a Python dict `KeyError key` is `.keyError key`.
-/

/-- An XML element tree as delivered by the external XML collaborator:
a fully qualified tag (lxml style, `\x7bnamespace\x7dlocal`), an attribute
list and child elements in document order. -/
inductive XmlTree where
  | elem (tag : String) (attrs : List (String × String)) (children : List XmlTree)

def XmlTree.tag : XmlTree → String
  | .elem t _ _ => t

def XmlTree.attrs : XmlTree → List (String × String)
  | .elem _ a _ => a

def XmlTree.children : XmlTree → List XmlTree
  | .elem _ _ c => c

/-- `element.get(key)`: attribute lookup. -/
def XmlTree.getAttr (t : XmlTree) (key : String) : Option String :=
  t.attrs.lookup key

mutual

/-- All proper descendants of an element in document order
(what lxml `findall(".//...")` traverses). -/
def XmlTree.descendants : XmlTree → List XmlTree
  | .elem _ _ children => XmlTree.descendantsList children

def XmlTree.descendantsList : List XmlTree → List XmlTree
  | [] => []
  | c :: rest => c :: (XmlTree.descendants c ++ XmlTree.descendantsList rest)

end

/-- `element.iter()`: the element itself followed by all of its
descendants, in document order. -/
def XmlTree.iterAll (t : XmlTree) : List XmlTree :=
  t :: t.descendants

/-- `tree.find(tag)` for a plain qualified tag: the first direct child
whose tag matches. -/
def XmlTree.findChild (t : XmlTree) (tag : String) : Option XmlTree :=
  t.children.find? (fun c => c.tag == tag)

/-- Build an lxml-style fully qualified tag, as the source format string
`"\x7b%s\x7d%s" % (ns, local)` does. -/
def qualTag (ns localName : String) : String :=
  "\x7b" ++ ns ++ "\x7d" ++ localName

def NAMESPACES_OPF : String := "http://www.idpf.org/2007/opf"
def NAMESPACES_CONTAINERS : String := "urn:oasis:names:tc:opendocument:xmlns:container"

def CONTENT_FILETYPES : List String := [".xhtml", ".xml", ".opf"]

/-- A Python dict keyed by strings: an association list with unique keys in
insertion order.  `insert` updates in place (keeping the original
position of the key) when the key exists, else appends — Python `d[k] = v`. -/
abbrev FileMap : Type := List (String × String)

def FileMap.hasKey (m : FileMap) (k : String) : Bool :=
  m.any (fun p => p.1 == k)

def FileMap.lookup (m : FileMap) (k : String) : Option String :=
  List.lookup k m

def FileMap.insert (m : FileMap) (k v : String) : FileMap :=
  if m.hasKey k then
    m.map (fun p => if p.1 == k then (k, v) else p)
  else
    m ++ [(k, v)]

/-- Python `str.split(sep)` for a one-character separator, on character
lists (structural, so the kernel can evaluate it). -/
def splitChar (sep : Char) : List Char → List (List Char)
  | [] => [[]]
  | c :: rest =>
    match splitChar sep rest with
    | [] => [[]]
    | grp :: grps => if c == sep then [] :: grp :: grps else (c :: grp) :: grps

/-- Python `path.split("/")`. -/
def splitSlash (p : String) : List String :=
  (splitChar '/' p.toList).map String.mk

/-- Python `"/".join(parts)`. -/
def joinSlash : List String → String
  | [] => ""
  | [s] => s
  | s :: rest => s ++ "/" ++ joinSlash rest

/-- `os.path.basename`: everything after the last slash. -/
def basename (p : String) : String :=
  (splitSlash p).getLastD ""

/-- The final path component as `pathlib.PurePosixPath(p).name`: empty and
`.` segments are dropped, the last remaining segment (if any) is the name. -/
def pathName (p : String) : String :=
  ((splitSlash p).filter (fun seg => seg != "" && seg != ".")).getLastD ""

/-- `pathlib.PurePosixPath(p).suffix`: the part of the name from its last
dot onwards, provided that dot is neither the first nor the last character
of the name; otherwise the empty string. -/
def pathSuffix (p : String) : String :=
  let name := pathName p
  let cs := name.toList
  let dotIdxs := (List.range cs.length).filter (fun i => cs.getD i ' ' == '.')
  match dotIdxs.getLast? with
  | some i => if 0 < i && i < cs.length - 1 then String.mk (cs.drop i) else ""
  | none => ""

/-- `Epub`: the texts of one publication, in manifest order. -/
structure Epub where
  texts : List String
deriving DecidableEq

/-- `Epub.dump_contents`: fold the texts together by string append,
starting from the empty string. -/
def Epub.dump_contents (e : Epub) : String :=
  e.texts.foldl (fun epub_text text => epub_text ++ text) ""

/-- Error outcomes of the pipeline: `MalformedEpubException` and the
`KeyError` a Python dict subscript raises on a missing key. -/
inductive EpubError where
  | malformed (msg : String)
  | keyError (key : String)
deriving DecidableEq

structure UncompressedEpub where
  rootfiles : List String
  files : FileMap
deriving DecidableEq

/-- `decode`: on this model byte payloads are already strings. -/
def decode (data : String) : String := data

/-- One archive entry as yielded by the `stream_unzip` collaborator: the
entry path (already decoded from bytes) and its payload chunk sequence. -/
structure ArchiveEntry where
  path : String
  chunks : List String

/-- An archive stream: the finite forward-only entry sequence. -/
abbrev ArchiveStream : Type := List ArchiveEntry

/-- `normalize_path`, inner `for path in files` loop: skip single-segment
paths, re-key the rest by dropping the first segment, with dict-insert
collision semantics. -/
def normalize_loop : List (String × String) → FileMap → FileMap
  | [], normalized_dict => normalized_dict
  | (path, data) :: rest, normalized_dict =>
    let path_arr := splitSlash path
    if path_arr.length = 1 then
      normalize_loop rest normalized_dict
    else
      normalize_loop rest (normalized_dict.insert (joinSlash (path_arr.drop 1)) data)

/-- `normalize_path`.  The source indexes `rootfiles[0]`; on an empty
rootfile list Python would raise `IndexError`, and both call sites
guarantee the list is non-empty, so the `[]` branch here is dead code. -/
def normalize_path (rootfiles : List String) (files : FileMap) : FileMap :=
  match rootfiles with
  | [] => files
  | r0 :: _ =>
    if files.hasKey r0 then files
    else normalize_loop files []

/-- `extract_root_path`: all descendant `rootfile` elements in the
CONTAINERS namespace carrying a `media-type` attribute (the
`.//xmlns:rootfile[@media-type]` findall); keep the `full-path` value of
those whose `media-type` equals `application/oebps-package+xml` and whose
`full-path` attribute is not `None`. -/
def extract_root_path (parse : String → XmlTree) (container_file : String) : List String :=
  let tree := parse container_file
  let root_files := (XmlTree.descendants tree).filter
    (fun e => e.tag == qualTag NAMESPACES_CONTAINERS "rootfile" && (e.getAttr "media-type").isSome)
  root_files.foldl (fun rootfiles root_file =>
    match root_file.getAttr "media-type", root_file.getAttr "full-path" with
    | some mediatype, some fullpath =>
      if mediatype == "application/oebps-package+xml" then rootfiles ++ [fullpath]
      else rootfiles
    | _, _ => rootfiles) []

/-- `read_unzipped_chunks`: drain the chunk iterator; accumulate bytes only
for textual entries, starting from `None` so a chunkless entry stays
`None`. -/
def read_unzipped_chunks (file_chunks : List String) (is_textfile : Bool) : Option String :=
  file_chunks.foldl (fun file_bytes chunk =>
    if !is_textfile then file_bytes
    else
      match file_bytes with
      | none => some chunk
      | some b => some (b ++ chunk)) none

/-- The entry classifier of `uncompress_epub`:
`file_ext = pathlib.Path(filepath).suffix; file_ext in CONTENT_FILETYPES`. -/
def is_textfile (filepath : String) : Bool :=
  CONTENT_FILETYPES.contains (pathSuffix filepath)

/-- One iteration of the `uncompress_epub` entry loop, acting on the
`(files, rootfiles)` state. -/
def uncompressStep (parse : String → XmlTree) (st : FileMap × List String)
    (entry : ArchiveEntry) : FileMap × List String :=
  let filepath := entry.path
  let filename := basename filepath
  match read_unzipped_chunks entry.chunks (is_textfile filepath) with
  | none => st
  | some current_bytes =>
    if filename == "container.xml" then
      (st.1, extract_root_path parse current_bytes)
    else
      (st.1.insert filepath current_bytes, st.2)

def uncompress_epub (parse : String → XmlTree) (stream : ArchiveStream) :
    Except EpubError UncompressedEpub :=
  let st := stream.foldl (uncompressStep parse) ([], [])
  if st.2.length = 0 then
    .error (.malformed ("No root file found in META-INF/container.xml definition." ++
      " (Epub is not correctly packaged, unable to find content)"))
  else
    .ok { rootfiles := st.2, files := normalize_path st.2 st.1 }

/-- `fix_mediatype`: override the common `image/jpg` mistake. -/
def fix_mediatype (mediatype : Option String) : Option String :=
  if mediatype == some "image/jpg" then some "image/jpeg"
  else mediatype

/-- The `for item in manifest.iter()` loop of `extract_textfiles`,
accumulating `texts`; a missing lookup key raises `KeyError`. -/
def extract_loop (h2t : String → String) (files : FileMap) (root_dir : String) :
    List XmlTree → List String → Except EpubError (List String)
  | [], texts => .ok texts
  | item :: rest, texts =>
    if item.tag != qualTag NAMESPACES_OPF "item" then
      extract_loop h2t files root_dir rest texts
    else
      let media_type := fix_mediatype (item.getAttr "media-type")
      if media_type == some "application/xhtml+xml" then
        match item.getAttr "href" with
        | none => extract_loop h2t files root_dir rest texts
        | some filepath =>
          let normalized_path := root_dir ++ "/" ++ filepath
          match files.lookup normalized_path with
          | none => .error (.keyError normalized_path)
          | some contents =>
            extract_loop h2t files root_dir rest (texts ++ [h2t (decode contents)])
      else
        extract_loop h2t files root_dir rest texts

def extract_textfiles (parse : String → XmlTree) (h2t : String → String)
    (rootfile : String) (files : FileMap) (root_dir : String) : Except EpubError Epub :=
  let tree := parse rootfile
  match tree.findChild (qualTag NAMESPACES_OPF "manifest") with
  | none => .error (.malformed "Rootfile has no manifest")
  | some manifest =>
    match extract_loop h2t files root_dir manifest.iterAll [] with
    | .error e => .error e
    | .ok texts => .ok { texts := texts }

/-- The `for rootfile_path in uncompressed_epub.rootfiles` loop of
`read_uncompressed_epubs`; `files[rootfile_path]` on a missing key raises
`KeyError`. -/
def read_loop (parse : String → XmlTree) (h2t : String → String) (files : FileMap) :
    List String → List Epub → Except EpubError (List Epub)
  | [], publications => .ok publications
  | rootfile_path :: rest, publications =>
    let rootfile_dir := (splitSlash rootfile_path).headD ""
    match files.lookup rootfile_path with
    | none => .error (.keyError rootfile_path)
    | some rootfile =>
      match extract_textfiles parse h2t rootfile files rootfile_dir with
      | .error e => .error e
      | .ok epub => read_loop parse h2t files rest (publications ++ [epub])

def read_uncompressed_epubs (parse : String → XmlTree) (h2t : String → String)
    (uncompressed_epub : UncompressedEpub) : Except EpubError (List Epub) :=
  read_loop parse h2t uncompressed_epub.files uncompressed_epub.rootfiles []

def read (parse : String → XmlTree) (h2t : String → String) (stream : ArchiveStream) :
    Except EpubError (List Epub) :=
  match uncompress_epub parse stream with
  | .error e => .error e
  | .ok uncompressed_epub => read_uncompressed_epubs parse h2t uncompressed_epub

instance {ε α : Type} [DecidableEq ε] [DecidableEq α] : DecidableEq (Except ε α)
  | .error x, .error y =>
    if h : x = y then .isTrue (congrArg Except.error h)
    else .isFalse (fun hc => h (by cases hc; rfl))
  | .error _, .ok _ => .isFalse (fun hc => Except.noConfusion hc)
  | .ok _, .error _ => .isFalse (fun hc => Except.noConfusion hc)
  | .ok x, .ok y =>
    if h : x = y then .isTrue (congrArg Except.ok h)
    else .isFalse (fun hc => h (by cases hc; rfl))

/-! ## Specification-side definitions

These restate selection and normalization rules in the words of the spec, to be
compared with the embedded source functions. -/

/-- Python `str.lower()` restricted to the ASCII case that the spec
wording "lowercased" concerns. -/
def lowercase (s : String) : String :=
  String.mk (s.toList.map Char.toLower)

/-- The error taxonomy of the spec: its "structural errors" are the
`MalformedEpubException` cases; a dict `KeyError` is its lookup error. -/
def isStructural : EpubError → Bool
  | .malformed _ => true
  | .keyError _ => false

/-- The manifest selection rule of the spec: an element is a selected content
item iff it is an OPF `item`, it carries an `href`, and its media type
after alias normalization equals `application/xhtml+xml` exactly. -/
def isContentItem (it : XmlTree) : Bool :=
  it.tag == qualTag NAMESPACES_OPF "item" &&
  (it.getAttr "href").isSome &&
  fix_mediatype (it.getAttr "media-type") == some "application/xhtml+xml"

/-- The lookup key of a selected content item:
`rootfileDirectory ++ "/" ++ href`. -/
def itemKey (root_dir : String) (it : XmlTree) : String :=
  root_dir ++ "/" ++ (it.getAttr "href").getD ""

/-- The re-keying rule of the spec for path normalization: discard every entry
whose key has exactly one slash-separated segment; re-key every other
entry by dropping its first segment and rejoining the rest with `/`,
accumulating dict-style into a fresh map. -/
def rekeyedFiles (files : FileMap) : FileMap :=
  (files.filter (fun p => (splitSlash p.1).length != 1)).foldl
    (fun d p => d.insert (joinSlash ((splitSlash p.1).drop 1)) p.2) []

/-- The container selection rule of claim C6 as stated: qualifying
rootfile elements must have the package media type and a *present and
non-empty* `full-path`. -/
def declaredRootPathsSpec (tree : XmlTree) : List String :=
  (XmlTree.descendants tree).filterMap (fun e =>
    if e.tag == qualTag NAMESPACES_CONTAINERS "rootfile" &&
       e.getAttr "media-type" == some "application/oebps-package+xml" then
      match e.getAttr "full-path" with
      | some fp => if fp != "" then some fp else none
      | none => none
    else none)

/-- The amended container selection rule: qualifying rootfile elements
must have the package media type and a present (possibly empty)
`full-path`. -/
def declaredRootPathsAmended (tree : XmlTree) : List String :=
  (XmlTree.descendants tree).filterMap (fun e =>
    if e.tag == qualTag NAMESPACES_CONTAINERS "rootfile" &&
       e.getAttr "media-type" == some "application/oebps-package+xml" then
      e.getAttr "full-path"
    else none)

/-! ## Concrete fixtures (used by witnesses and counterexamples) -/

def opfItem (id href mt : String) : XmlTree :=
  .elem (qualTag NAMESPACES_OPF "item")
    [("id", id), ("href", href), ("media-type", mt)] []

def sampleManifestTree : XmlTree :=
  .elem (qualTag NAMESPACES_OPF "manifest") []
    [ opfItem "ch1" "ch1.xhtml" "application/xhtml+xml"
    , opfItem "css" "style.css" "text/css" ]

/-- A package document with one XHTML chapter and one CSS item. -/
def samplePackageTree : XmlTree :=
  .elem (qualTag NAMESPACES_OPF "package") []
    [ .elem (qualTag NAMESPACES_OPF "metadata") [] []
    , sampleManifestTree
    , .elem (qualTag NAMESPACES_OPF "spine") [] [] ]

def containerWith (rootfileAttrs : List (String × String)) : XmlTree :=
  .elem (qualTag NAMESPACES_CONTAINERS "container") []
    [ .elem (qualTag NAMESPACES_CONTAINERS "rootfiles") []
        [ .elem (qualTag NAMESPACES_CONTAINERS "rootfile") rootfileAttrs [] ] ]

def sampleContainerTree : XmlTree :=
  containerWith [("full-path", "R/pkg.opf"), ("media-type", "application/oebps-package+xml")]

def emptyElem : XmlTree := .elem "" [] []

/-- A parse collaborator for the well-formed sample archive. -/
def sampleParse : String → XmlTree :=
  fun s =>
    if s = "CONTAINER-XML" then sampleContainerTree
    else if s = "PACKAGE-OPF" then samplePackageTree
    else emptyElem

def sampleStream : ArchiveStream :=
  [ ⟨"mimetype", ["application/epub+zip"]⟩
  , ⟨"META-INF/container.xml", ["CONTAINER-XML"]⟩
  , ⟨"R/pkg.opf", ["PACKAGE-OPF"]⟩
  , ⟨"R/ch1.xhtml", ["Hello ", "world"]⟩
  , ⟨"cover.jpeg", ["JPG"]⟩ ]

def danglingManifestTree : XmlTree :=
  .elem (qualTag NAMESPACES_OPF "manifest") []
    [ opfItem "gone" "missing.xhtml" "application/xhtml+xml" ]

/-- A package document whose sole XHTML item points at a file the archive
does not ship. -/
def danglingPackageTree : XmlTree :=
  .elem (qualTag NAMESPACES_OPF "package") [] [danglingManifestTree]

def danglingParse : String → XmlTree :=
  fun _ => danglingPackageTree

/-- A container whose rootfile has the right media type but an *empty*
`full-path` attribute. -/
def emptyFullPathContainer : XmlTree :=
  containerWith [("media-type", "application/oebps-package+xml"), ("full-path", "")]

def sampleUncompressed : UncompressedEpub :=
  ⟨["R/pkg.opf"], [("R/pkg.opf", "PACKAGE-OPF"), ("R/ch1.xhtml", "Hello world")]⟩

/-- A container declaring a rootfile path that is absent from the archive
even after normalization. -/
def c9ContainerTree : XmlTree :=
  containerWith [("full-path", "X/a.opf"), ("media-type", "application/oebps-package+xml")]

def c9Parse : String → XmlTree :=
  fun s => if s = "C9-CONTAINER" then c9ContainerTree else emptyElem

def c9Stream : ArchiveStream :=
  [ ⟨"META-INF/container.xml", ["C9-CONTAINER"]⟩
  , ⟨"W/b.xml", ["data"]⟩ ]

example : extract_root_path sampleParse "CONTAINER-XML" = ["R/pkg.opf"] := by decide
example : uncompress_epub sampleParse sampleStream =
    .ok ⟨["R/pkg.opf"], [("R/pkg.opf", "PACKAGE-OPF"), ("R/ch1.xhtml", "Hello world")]⟩ := by
  decide
example : read sampleParse id sampleStream = .ok [⟨["Hello world"]⟩] := by decide
example : uncompress_epub c9Parse c9Stream = .ok ⟨["X/a.opf"], [("b.xml", "data")]⟩ := by decide
example : read c9Parse id c9Stream = .error (.keyError "X/a.opf") := by decide

/-! ## Helper lemmas -/

lemma read_unzipped_chunks_not_text (chunks : List String) :
    read_unzipped_chunks chunks false = none := by
  show List.foldl _ none chunks = none
  induction chunks with
  | nil => rfl
  | cons c cs ih => simp [ih]

lemma uncompressStep_not_text (parse : String → XmlTree) (st : FileMap × List String)
    (e : ArchiveEntry) (h : is_textfile e.path = false) :
    uncompressStep parse st e = st := by
  show (match read_unzipped_chunks e.chunks (is_textfile e.path) with
    | none => st
    | some current_bytes =>
      if (basename e.path == "container.xml") = true then (st.1, extract_root_path parse current_bytes)
      else (st.1.insert e.path current_bytes, st.2)) = st
  rw [h, read_unzipped_chunks_not_text]

lemma read_unzipped_chunks_nil (b : Bool) : read_unzipped_chunks [] b = none := rfl

lemma lookup_eq_none_iff_hasKey (m : FileMap) (k : String) :
    FileMap.lookup m k = none ↔ FileMap.hasKey m k = false := by
  induction m with
  | nil => simp [FileMap.lookup, FileMap.hasKey]
  | cons p rest ih =>
    obtain ⟨a, b⟩ := p
    by_cases h : k = a
    · subst h
      simp [FileMap.lookup, FileMap.hasKey, List.lookup]
    · simp only [FileMap.lookup, FileMap.hasKey, List.lookup, List.any_cons] at *
      have h1 : (k == a) = false := by simpa using h
      have h2 : (a == k) = false := by simpa using Ne.symm h
      simp [h1, h2, ih]

lemma normalize_loop_eq (l : List (String × String)) :
    ∀ acc, normalize_loop l acc =
      (l.filter (fun p => (splitSlash p.1).length != 1)).foldl
        (fun d p => d.insert (joinSlash ((splitSlash p.1).drop 1)) p.2) acc := by
  induction l with
  | nil => intro acc; rfl
  | cons p rest ih =>
    intro acc
    obtain ⟨path, data⟩ := p
    by_cases h : (splitSlash path).length = 1
    · simp [normalize_loop, h, ih, List.filter_cons]
    · simp [normalize_loop, h, ih, List.filter_cons]

lemma extract_fold_eq (l : List XmlTree) :
    ∀ acc, l.foldl (fun rootfiles root_file =>
      match root_file.getAttr "media-type", root_file.getAttr "full-path" with
      | some mediatype, some fullpath =>
        if mediatype == "application/oebps-package+xml" then rootfiles ++ [fullpath]
        else rootfiles
      | _, _ => rootfiles) acc =
    acc ++ l.filterMap (fun e =>
      if e.getAttr "media-type" == some "application/oebps-package+xml" then
        e.getAttr "full-path"
      else none) := by
  induction l with
  | nil => intro acc; simp
  | cons e rest ih =>
    intro acc
    rw [List.foldl_cons, List.filterMap_cons, ih]
    cases hmt : e.getAttr "media-type" with
    | none => simp [hmt]
    | some mediatype =>
      cases hfp : e.getAttr "full-path" with
      | none => simp [hmt, hfp]
      | some fullpath =>
        by_cases hq : mediatype = "application/oebps-package+xml"
        · simp [hmt, hfp, hq]
        · simp [hmt, hfp, hq]

lemma filter_filterMap_rootfile (l : List XmlTree) :
    (l.filter (fun e =>
        e.tag == qualTag NAMESPACES_CONTAINERS "rootfile" &&
        (e.getAttr "media-type").isSome)).filterMap (fun e =>
      if e.getAttr "media-type" == some "application/oebps-package+xml" then
        e.getAttr "full-path"
      else none) =
    l.filterMap (fun e =>
      if e.tag == qualTag NAMESPACES_CONTAINERS "rootfile" &&
         e.getAttr "media-type" == some "application/oebps-package+xml" then
        e.getAttr "full-path"
      else none) := by
  rw [List.filterMap_filter]
  apply List.filterMap_congr
  intro e _
  by_cases htag : e.tag = qualTag NAMESPACES_CONTAINERS "rootfile"
  · cases hmt : e.getAttr "media-type" with
    | none => simp [htag, hmt]
    | some mediatype =>
      by_cases hq : mediatype = "application/oebps-package+xml"
      · simp [htag, hmt, hq]
      · simp [htag, hmt, hq]
  · simp [htag]

lemma extract_root_path_eq_amended (parse : String → XmlTree) (container_file : String) :
    extract_root_path parse container_file = declaredRootPathsAmended (parse container_file) := by
  unfold extract_root_path declaredRootPathsAmended
  rw [extract_fold_eq, filter_filterMap_rootfile]
  simp

lemma extract_loop_ok_inv (h2t : String → String) (files : FileMap) (root_dir : String) :
    ∀ (items : List XmlTree) (texts ts : List String),
    extract_loop h2t files root_dir items texts = .ok ts →
    (∀ it ∈ items.filter isContentItem, (files.lookup (itemKey root_dir it)).isSome = true) ∧
    ts = texts ++ (items.filter isContentItem).map
      (fun it => h2t (decode ((files.lookup (itemKey root_dir it)).getD ""))) := by
  intro items
  induction items with
  | nil =>
    intro texts ts h
    unfold extract_loop at h
    cases h
    simp
  | cons item rest ih =>
    intro texts ts h
    unfold extract_loop at h
    by_cases htag : item.tag = qualTag NAMESPACES_OPF "item"
    swap
    · have hbne : (item.tag != qualTag NAMESPACES_OPF "item") = true := by simp [htag]
      rw [if_pos hbne] at h
      have hsel : isContentItem item = false := by simp [isContentItem, htag]
      obtain ⟨h1, h2⟩ := ih texts ts h
      rw [List.filter_cons, if_neg (by simp [hsel])]
      exact ⟨h1, h2⟩
    · have hbne : (item.tag != qualTag NAMESPACES_OPF "item") = false := by simp [htag]
      rw [if_neg (by simp [hbne])] at h
      by_cases hmt : fix_mediatype (item.getAttr "media-type") = some "application/xhtml+xml"
      swap
      · have hbeq : (fix_mediatype (item.getAttr "media-type") ==
            some "application/xhtml+xml") = false := by simpa using hmt
        rw [if_neg (by simp [hbeq])] at h
        have hsel : isContentItem item = false := by simp [isContentItem, hmt]
        obtain ⟨h1, h2⟩ := ih texts ts h
        rw [List.filter_cons, if_neg (by simp [hsel])]
        exact ⟨h1, h2⟩
      · have hbeq : (fix_mediatype (item.getAttr "media-type") ==
            some "application/xhtml+xml") = true := by simpa using hmt
        rw [if_pos hbeq] at h
        cases hhref : item.getAttr "href" with
        | none =>
          rw [hhref] at h
          have hsel : isContentItem item = false := by simp [isContentItem, hhref]
          obtain ⟨h1, h2⟩ := ih texts ts h
          rw [List.filter_cons, if_neg (by simp [hsel])]
          exact ⟨h1, h2⟩
        | some filepath =>
          rw [hhref] at h
          dsimp only at h
          have hkey : itemKey root_dir item = root_dir ++ "/" ++ filepath := by
            simp [itemKey, hhref]
          cases hlk : files.lookup (root_dir ++ "/" ++ filepath) with
          | none =>
            rw [hlk] at h
            cases h
          | some contents =>
            rw [hlk] at h
            have hsel : isContentItem item = true := by
              simp [isContentItem, htag, hhref, hmt]
            obtain ⟨h1, h2⟩ := ih (texts ++ [h2t (decode contents)]) ts h
            rw [List.filter_cons, if_pos hsel]
            constructor
            · intro it hit
              cases hit with
              | head => rw [hkey, hlk]; rfl
              | tail _ htl => exact h1 it htl
            · rw [List.map_cons, hkey, hlk, h2]
              simp

lemma extract_loop_err (h2t : String → String) (files : FileMap) (root_dir : String) :
    ∀ (items : List XmlTree) (texts : List String),
    (∃ it ∈ items.filter isContentItem, files.lookup (itemKey root_dir it) = none) →
    ∃ k, extract_loop h2t files root_dir items texts = .error (.keyError k) := by
  intro items
  induction items with
  | nil => intro texts h; simp at h
  | cons item rest ih =>
    intro texts h
    unfold extract_loop
    by_cases htag : item.tag = qualTag NAMESPACES_OPF "item"
    swap
    · have hsel : isContentItem item = false := by simp [isContentItem, htag]
      rw [List.filter_cons, if_neg (by simp [hsel])] at h
      have hbne : (item.tag != qualTag NAMESPACES_OPF "item") = true := by simp [htag]
      rw [if_pos hbne]
      exact ih texts h
    · have hbne : (item.tag != qualTag NAMESPACES_OPF "item") = false := by simp [htag]
      rw [if_neg (by simp [hbne])]
      by_cases hmt : fix_mediatype (item.getAttr "media-type") = some "application/xhtml+xml"
      swap
      · have hbeq : (fix_mediatype (item.getAttr "media-type") ==
            some "application/xhtml+xml") = false := by simpa using hmt
        rw [if_neg (by simp [hbeq])]
        have hsel : isContentItem item = false := by simp [isContentItem, hmt]
        rw [List.filter_cons, if_neg (by simp [hsel])] at h
        exact ih texts h
      · have hbeq : (fix_mediatype (item.getAttr "media-type") ==
            some "application/xhtml+xml") = true := by simpa using hmt
        rw [if_pos hbeq]
        cases hhref : item.getAttr "href" with
        | none =>
          have hsel : isContentItem item = false := by simp [isContentItem, hhref]
          rw [List.filter_cons, if_neg (by simp [hsel])] at h
          exact ih texts h
        | some filepath =>
          have hsel : isContentItem item = true := by
            simp [isContentItem, htag, hhref, hmt]
          have hkey : itemKey root_dir item = root_dir ++ "/" ++ filepath := by
            simp [itemKey, hhref]
          rw [List.filter_cons, if_pos hsel] at h
          dsimp only
          cases hlk : files.lookup (root_dir ++ "/" ++ filepath) with
          | none => exact ⟨root_dir ++ "/" ++ filepath, rfl⟩
          | some contents =>
            obtain ⟨it, hit, hnone⟩ := h
            cases hit with
            | head =>
              rw [hkey, hlk] at hnone
              cases hnone
            | tail _ htl =>
              exact ih (texts ++ [h2t (decode contents)]) ⟨it, htl, hnone⟩


lemma read_loop_ok_shape (parse : String → XmlTree) (h2t : String → String) (files : FileMap) :
    ∀ (paths : List String) (pubs l : List Epub),
    read_loop parse h2t files paths pubs = .ok l →
    ∃ es : List Epub, l = pubs ++ es ∧ es.length = paths.length ∧
    ∀ i, i < paths.length → ∃ p rf e,
      paths[i]? = some p ∧ files.lookup p = some rf ∧
      extract_textfiles parse h2t rf files ((splitSlash p).headD "") = .ok e ∧
      es[i]? = some e := by
  intro paths
  induction paths with
  | nil =>
    intro pubs l h
    unfold read_loop at h
    cases h
    exact ⟨[], by simp⟩
  | cons p rest ih =>
    intro pubs l h
    unfold read_loop at h
    dsimp only at h
    cases hlk : files.lookup p with
    | none => rw [hlk] at h; cases h
    | some rf =>
      rw [hlk] at h
      dsimp only at h
      cases hex : extract_textfiles parse h2t rf files ((splitSlash p).headD "") with
      | error err => rw [hex] at h; cases h
      | ok epub =>
        rw [hex] at h
        obtain ⟨es, hl, hlen, hidx⟩ := ih (pubs ++ [epub]) l h
        refine ⟨epub :: es, by simpa using hl, by simpa using hlen, ?_⟩
        intro i hi
        cases i with
        | zero => exact ⟨p, rf, epub, by simp, hlk, hex, by simp⟩
        | succ j =>
          obtain ⟨q, rq, eq, hq1, hq2, hq3, hq4⟩ := hidx j
            (by simp only [List.length_cons] at hi; omega)
          exact ⟨q, rq, eq, by simpa using hq1, hq2, hq3, by simpa using hq4⟩

lemma read_loop_absent (parse : String → XmlTree) (h2t : String → String) (files : FileMap) :
    ∀ (paths : List String) (pubs : List Epub),
    (∃ p ∈ paths, files.lookup p = none) →
    ∃ err, read_loop parse h2t files paths pubs = .error err := by
  intro paths
  induction paths with
  | nil => intro pubs h; simp at h
  | cons p rest ih =>
    intro pubs h
    unfold read_loop
    dsimp only
    cases hlk : files.lookup p with
    | none => exact ⟨.keyError p, rfl⟩
    | some rf =>
      dsimp only
      obtain ⟨q, hq, hnone⟩ := h
      cases hq with
      | head => rw [hlk] at hnone; cases hnone
      | tail _ htl =>
        cases hex : extract_textfiles parse h2t rf files ((splitSlash p).headD "") with
        | error err => exact ⟨err, rfl⟩
        | ok epub => exact ih (pubs ++ [epub]) ⟨q, htl, hnone⟩

lemma uncompress_fold_no_rootfile (parse : String → XmlTree) :
    ∀ (stream : ArchiveStream) (st : FileMap × List String),
    (∀ e ∈ stream, basename e.path = "container.xml" →
      ∀ b, read_unzipped_chunks e.chunks (is_textfile e.path) = some b →
      extract_root_path parse b = []) →
    st.2 = [] →
    (stream.foldl (uncompressStep parse) st).2 = [] := by
  intro stream
  induction stream with
  | nil => intro st _ hst; simpa using hst
  | cons e rest ih =>
    intro st h hst
    rw [List.foldl_cons]
    refine ih _ (fun x hx hc b hb => h x (List.mem_cons_of_mem e hx) hc b hb) ?_
    simp only [uncompressStep]
    cases hb : read_unzipped_chunks e.chunks (is_textfile e.path) with
    | none => exact hst
    | some b =>
      dsimp only
      by_cases hc : basename e.path = "container.xml"
      · rw [if_pos (show (basename e.path == "container.xml") = true by simp [hc])]
        exact h e (List.mem_cons_self e rest) hc b hb
      · rw [if_neg (show ¬ (basename e.path == "container.xml") = true by simp [hc])]
        exact hst

lemma findChild_tag (t : XmlTree) (tg : String) (c : XmlTree)
    (h : t.findChild tg = some c) : c.tag = tg := by
  unfold XmlTree.findChild at h
  have := List.find?_some h
  simpa using this

lemma manifest_not_item (manifest : XmlTree)
    (h : manifest.tag = qualTag NAMESPACES_OPF "manifest") :
    isContentItem manifest = false := by
  have hne : (qualTag NAMESPACES_OPF "manifest" == qualTag NAMESPACES_OPF "item") = false := by
    decide
  simp [isContentItem, h, hne]

lemma iterAll_filter_content (manifest : XmlTree)
    (h : manifest.tag = qualTag NAMESPACES_OPF "manifest") :
    manifest.iterAll.filter isContentItem = manifest.descendants.filter isContentItem := by
  unfold XmlTree.iterAll
  rw [List.filter_cons, if_neg (by simp [manifest_not_item manifest h])]

lemma extract_textfiles_ok (parse : String → XmlTree) (h2t : String → String)
    (rootfile : String) (files : FileMap) (root_dir : String) (manifest : XmlTree) (e : Epub)
    (hm : (parse rootfile).findChild (qualTag NAMESPACES_OPF "manifest") = some manifest)
    (hok : extract_textfiles parse h2t rootfile files root_dir = .ok e) :
    (∀ it ∈ manifest.iterAll.filter isContentItem,
      (files.lookup (itemKey root_dir it)).isSome = true) ∧
    e.texts = (manifest.iterAll.filter isContentItem).map
      (fun it => h2t (decode ((files.lookup (itemKey root_dir it)).getD ""))) := by
  unfold extract_textfiles at hok
  dsimp only at hok
  rw [hm] at hok
  dsimp only at hok
  cases hloop : extract_loop h2t files root_dir manifest.iterAll [] with
  | error err => rw [hloop] at hok; cases hok
  | ok ts =>
    rw [hloop] at hok
    cases hok
    obtain ⟨h1, h2⟩ := extract_loop_ok_inv h2t files root_dir manifest.iterAll [] ts hloop
    exact ⟨h1, by simpa using h2⟩

/-! ## Claims -/

/-- C2: for every Epub, `dump_contents()` returns exactly the left-to-right
concatenation of `texts` with no separator, and the empty string on an
empty `texts`. -/
theorem dump_contents_is_exact_concatenation (e : Epub) :
    e.dump_contents = String.join e.texts ∧ Epub.dump_contents ⟨[]⟩ = "" :=
  ⟨rfl, rfl⟩

/-- C4: for a non-empty rootfile list, `normalize_path` returns the map
unchanged when the first rootfile path is already a key (so normalization
is a no-op on an already-normalized map); otherwise it discards every
single-segment key and re-keys every other entry by dropping its first
segment and rejoining with `/`. -/
theorem normalize_path_branch_spec (r0 : String) (rest : List String) (files : FileMap) :
    (files.hasKey r0 = true → normalize_path (r0 :: rest) files = files) ∧
    (files.hasKey r0 = false → normalize_path (r0 :: rest) files = rekeyedFiles files) := by
  constructor
  · intro h
    unfold normalize_path
    dsimp only
    rw [if_pos h]
  · intro h
    unfold normalize_path
    dsimp only
    rw [if_neg (by simp [h])]
    unfold rekeyedFiles
    exact normalize_loop_eq files []

theorem normalize_path_branch_spec_witness :
    (FileMap.hasKey [("R/pkg.opf", "x")] "R/pkg.opf" = true ∧
     normalize_path ["R/pkg.opf"] [("R/pkg.opf", "x")] = [("R/pkg.opf", "x")]) ∧
    (FileMap.hasKey [("wrap/R/pkg.opf", "x"), ("mimetype", "m")] "R/pkg.opf" = false ∧
     normalize_path ["R/pkg.opf"] [("wrap/R/pkg.opf", "x"), ("mimetype", "m")] =
       rekeyedFiles [("wrap/R/pkg.opf", "x"), ("mimetype", "m")]) :=
  ⟨⟨by decide, (normalize_path_branch_spec "R/pkg.opf" [] [("R/pkg.opf", "x")]).1 (by decide)⟩,
   ⟨by decide,
    (normalize_path_branch_spec "R/pkg.opf" []
      [("wrap/R/pkg.opf", "x"), ("mimetype", "m")]).2 (by decide)⟩⟩

/-- C5 counterexample: the claim says the retain decision tests the
*lowercased* extension, but the source tests `pathlib.Path(...).suffix`
verbatim: `OEBPS/a.XML` has lowercased extension `.xml` in the allow-list,
yet the classifier rejects it. -/
theorem retain_decision_lowercase_counterexample :
    is_textfile "OEBPS/a.XML" = false ∧
    CONTENT_FILETYPES.contains (lowercase (pathSuffix "OEBPS/a.XML")) = true := by
  decide

/-- C5 amended: the retain decision equals membership of the extension
(case-sensitive, with the leading dot) in `{.xhtml, .xml, .opf}`; a path
with no extension is never retained, and a non-retained entry leaves the
uncompress state untouched. -/
theorem retain_decision_amended (p : String) (parse : String → XmlTree)
    (st : FileMap × List String) (e : ArchiveEntry) :
    is_textfile p = CONTENT_FILETYPES.contains (pathSuffix p) ∧
    (pathSuffix p = "" → is_textfile p = false) ∧
    (is_textfile e.path = false → uncompressStep parse st e = st) := by
  refine ⟨rfl, ?_, fun h => uncompressStep_not_text parse st e h⟩
  intro h
  unfold is_textfile
  rw [h]
  rfl

theorem retain_decision_amended_witness :
    (is_textfile "OEBPS/ch1.xhtml" = CONTENT_FILETYPES.contains (pathSuffix "OEBPS/ch1.xhtml")) ∧
    (pathSuffix "mimetype" = "" ∧ is_textfile "mimetype" = false) ∧
    (is_textfile "cover.jpeg" = false ∧
     uncompressStep sampleParse ([], []) ⟨"cover.jpeg", ["J"]⟩ = ([], [])) :=
  ⟨(retain_decision_amended "OEBPS/ch1.xhtml" sampleParse ([], []) ⟨"cover.jpeg", ["J"]⟩).1,
   ⟨by decide,
    (retain_decision_amended "mimetype" sampleParse ([], []) ⟨"cover.jpeg", ["J"]⟩).2.1
      (by decide)⟩,
   ⟨by decide,
    (retain_decision_amended "mimetype" sampleParse ([], []) ⟨"cover.jpeg", ["J"]⟩).2.2
      (by decide)⟩⟩

/-- C6 counterexample: the claim requires a present *and non-empty*
`full-path`, but the source only checks `is not None`: a rootfile with
`full-path=""` and the right media type contributes the empty path. -/
theorem extract_root_path_empty_fullpath_counterexample :
    extract_root_path (fun _ => emptyFullPathContainer) "container" = [""] ∧
    declaredRootPathsSpec emptyFullPathContainer = [] := by
  decide

/-- C6 amended: `extract_root_path` returns, in document order with
duplicates preserved, the `full-path` values of exactly the descendant
CONTAINERS-namespace rootfile elements whose `media-type` equals
`application/oebps-package+xml` and whose `full-path` attribute is
present (an empty value is kept). -/
theorem extract_root_path_amended (parse : String → XmlTree) (container_file : String) :
    extract_root_path parse container_file = declaredRootPathsAmended (parse container_file) :=
  extract_root_path_eq_amended parse container_file

/-- C10: an entry with zero chunks yields `None` from
`read_unzipped_chunks` even when textual, so `uncompress_epub` omits it
entirely: it is neither stored in the file map nor, for a container
entry, allowed to contribute rootfiles. -/
theorem empty_entry_never_stored (b : Bool) (parse : String → XmlTree)
    (st : FileMap × List String) (e : ArchiveEntry) (he : e.chunks = []) :
    read_unzipped_chunks [] b = none ∧
    read_unzipped_chunks e.chunks b = none ∧
    uncompressStep parse st e = st := by
  refine ⟨rfl, ?_, ?_⟩
  · rw [he]
    rfl
  · show (match read_unzipped_chunks e.chunks (is_textfile e.path) with
      | none => st
      | some current_bytes =>
        if (basename e.path == "container.xml") = true then
          (st.1, extract_root_path parse current_bytes)
        else (st.1.insert e.path current_bytes, st.2)) = st
    rw [he]
    rfl

theorem empty_entry_never_stored_witness :
    (⟨"META-INF/container.xml", []⟩ : ArchiveEntry).chunks = [] ∧
    read_unzipped_chunks [] true = none ∧
    uncompressStep sampleParse ([], []) ⟨"META-INF/container.xml", []⟩ = ([], []) :=
  ⟨rfl,
   (empty_entry_never_stored true sampleParse ([], []) ⟨"META-INF/container.xml", []⟩ rfl).1,
   (empty_entry_never_stored true sampleParse ([], []) ⟨"META-INF/container.xml", []⟩ rfl).2.2⟩

/-- C1: when extraction succeeds, `read` returns exactly one Epub per
declared rootfile, in declaration order; the i-th Epub is the one
`extract_textfiles` builds from the i-th declared rootfile. -/
theorem read_one_epub_per_rootfile (parse : String → XmlTree) (h2t : String → String)
    (stream : ArchiveStream) (u : UncompressedEpub) (l : List Epub)
    (hu : uncompress_epub parse stream = .ok u)
    (hr : read parse h2t stream = .ok l) :
    l.length = u.rootfiles.length ∧
    ∀ i, i < u.rootfiles.length → ∃ p rf e,
      u.rootfiles[i]? = some p ∧ u.files.lookup p = some rf ∧
      extract_textfiles parse h2t rf u.files ((splitSlash p).headD "") = .ok e ∧
      l[i]? = some e := by
  have hr1 : (match uncompress_epub parse stream with
    | .error e => (.error e : Except EpubError (List Epub))
    | .ok uncompressed_epub => read_uncompressed_epubs parse h2t uncompressed_epub) = .ok l := hr
  rw [hu] at hr1
  have hr2 : read_loop parse h2t u.files u.rootfiles [] = .ok l := hr1
  obtain ⟨es, hl, hlen, hidx⟩ := read_loop_ok_shape parse h2t u.files u.rootfiles [] l hr2
  simp only [List.nil_append] at hl
  subst hl
  exact ⟨hlen, hidx⟩

theorem read_one_epub_per_rootfile_witness :
    uncompress_epub sampleParse sampleStream = .ok sampleUncompressed ∧
    read sampleParse id sampleStream = .ok [⟨["Hello world"]⟩] ∧
    ([⟨["Hello world"]⟩] : List Epub).length = sampleUncompressed.rootfiles.length :=
  ⟨by decide, by decide,
   (read_one_epub_per_rootfile sampleParse id sampleStream sampleUncompressed
     [⟨["Hello world"]⟩] (by decide) (by decide)).1⟩

/-- C3: the texts of a successful extraction are exactly those descendant
OPF `item` elements of the manifest that carry an `href` and whose
alias-normalized media type equals `application/xhtml+xml`, in manifest
document order, each converted from the looked-up file contents; the
alias normalization maps `image/jpg` to `image/jpeg` and passes every
other media type through unchanged. -/
theorem extract_textfiles_selects_manifest_items (parse : String → XmlTree)
    (h2t : String → String) (rootfile : String) (files : FileMap) (root_dir : String)
    (manifest : XmlTree) (e : Epub)
    (hm : (parse rootfile).findChild (qualTag NAMESPACES_OPF "manifest") = some manifest)
    (hok : extract_textfiles parse h2t rootfile files root_dir = .ok e) :
    e.texts = (manifest.descendants.filter isContentItem).map
      (fun it => h2t (decode ((files.lookup (itemKey root_dir it)).getD ""))) ∧
    fix_mediatype (some "image/jpg") = some "image/jpeg" ∧
    (∀ mt : Option String, mt ≠ some "image/jpg" → fix_mediatype mt = mt) := by
  have htag := findChild_tag (parse rootfile) (qualTag NAMESPACES_OPF "manifest") manifest hm
  obtain ⟨h1, h2⟩ := extract_textfiles_ok parse h2t rootfile files root_dir manifest e hm hok
  refine ⟨?_, rfl, ?_⟩
  · rw [h2, iterAll_filter_content manifest htag]
  · intro mt hmt
    unfold fix_mediatype
    rw [if_neg (by simpa using hmt)]

theorem extract_textfiles_selects_manifest_items_witness :
    (sampleParse "PACKAGE-OPF").findChild (qualTag NAMESPACES_OPF "manifest") =
      some sampleManifestTree ∧
    extract_textfiles sampleParse id "PACKAGE-OPF" sampleUncompressed.files "R" =
      .ok ⟨["Hello world"]⟩ ∧
    (Epub.mk ["Hello world"]).texts =
      (sampleManifestTree.descendants.filter isContentItem).map
        (fun it => id (decode ((sampleUncompressed.files.lookup (itemKey "R" it)).getD ""))) :=
  ⟨rfl, by decide,
   (extract_textfiles_selects_manifest_items sampleParse id "PACKAGE-OPF"
     sampleUncompressed.files "R" sampleManifestTree ⟨["Hello world"]⟩ rfl (by decide)).1⟩

/-- C7: a selected manifest item whose resolved key
`rootfileDirectory / href` is absent from the normalized file map makes
extraction fail with an explicit `KeyError` rather than silently skipping
the item; consequently a successful extraction has exactly one text per
selected item. -/
theorem dangling_reference_lookup_error (parse : String → XmlTree) (h2t : String → String)
    (rootfile : String) (files : FileMap) (root_dir : String) (manifest : XmlTree)
    (hm : (parse rootfile).findChild (qualTag NAMESPACES_OPF "manifest") = some manifest) :
    ((∃ it ∈ manifest.iterAll.filter isContentItem,
        files.lookup (itemKey root_dir it) = none) →
      ∃ k, extract_textfiles parse h2t rootfile files root_dir = .error (.keyError k)) ∧
    (∀ e, extract_textfiles parse h2t rootfile files root_dir = .ok e →
      e.texts.length = (manifest.iterAll.filter isContentItem).length) := by
  constructor
  · intro hd
    obtain ⟨k, hk⟩ := extract_loop_err h2t files root_dir manifest.iterAll [] hd
    refine ⟨k, ?_⟩
    unfold extract_textfiles
    dsimp only
    rw [hm]
    dsimp only
    rw [hk]
  · intro e hok
    obtain ⟨h1, h2⟩ := extract_textfiles_ok parse h2t rootfile files root_dir manifest e hm hok
    rw [h2]
    simp

theorem dangling_reference_lookup_error_witness :
    (∃ it ∈ danglingManifestTree.iterAll.filter isContentItem,
       FileMap.lookup [] (itemKey "X" it) = none) ∧
    (∃ k, extract_textfiles danglingParse id "opf" [] "X" = .error (.keyError k)) :=
  ⟨by decide,
   (dangling_reference_lookup_error danglingParse id "opf" [] "X" danglingManifestTree
     rfl).1 (by decide)⟩

/-- C8: when no container entry yields a qualifying rootfile declaration
(including a missing container entry), `uncompress_epub` fails with the
no-rootfile `MalformedEpubException` and `read` propagates it, producing
zero Epub entities. -/
theorem no_rootfile_malformed (parse : String → XmlTree) (h2t : String → String)
    (stream : ArchiveStream)
    (h : ∀ e ∈ stream, basename e.path = "container.xml" →
      ∀ b, read_unzipped_chunks e.chunks (is_textfile e.path) = some b →
      extract_root_path parse b = []) :
    uncompress_epub parse stream =
      .error (.malformed ("No root file found in META-INF/container.xml definition." ++
        " (Epub is not correctly packaged, unable to find content)")) ∧
    read parse h2t stream =
      .error (.malformed ("No root file found in META-INF/container.xml definition." ++
        " (Epub is not correctly packaged, unable to find content)")) := by
  have hroot : (stream.foldl (uncompressStep parse) ([], [])).2 = [] :=
    uncompress_fold_no_rootfile parse stream ([], []) h rfl
  have hu : uncompress_epub parse stream =
      .error (.malformed ("No root file found in META-INF/container.xml definition." ++
        " (Epub is not correctly packaged, unable to find content)")) := by
    unfold uncompress_epub
    dsimp only
    rw [hroot]
    rfl
  refine ⟨hu, ?_⟩
  show (match uncompress_epub parse stream with
    | .error e => (.error e : Except EpubError (List Epub))
    | .ok uncompressed_epub => read_uncompressed_epubs parse h2t uncompressed_epub) =
    .error (.malformed ("No root file found in META-INF/container.xml definition." ++
      " (Epub is not correctly packaged, unable to find content)"))
  rw [hu]

theorem no_rootfile_malformed_witness :
    uncompress_epub sampleParse [] =
      .error (.malformed ("No root file found in META-INF/container.xml definition." ++
        " (Epub is not correctly packaged, unable to find content)")) ∧
    read sampleParse id [] =
      .error (.malformed ("No root file found in META-INF/container.xml definition." ++
        " (Epub is not correctly packaged, unable to find content)")) :=
  no_rootfile_malformed sampleParse id [] (by simp)

/-- C9 counterexample: the pipeline consumes an UncompressedEpub whose
declared rootfile `X/a.opf` is absent from its file map, yet extraction
fails with a `KeyError` — a lookup error, not the structural error the
claim requires. -/
theorem missing_rootfile_nonstructural_counterexample :
    uncompress_epub c9Parse c9Stream = .ok ⟨["X/a.opf"], [("b.xml", "data")]⟩ ∧
    FileMap.hasKey [("b.xml", "data")] "X/a.opf" = false ∧
    read c9Parse id c9Stream = .error (.keyError "X/a.opf") ∧
    isStructural (EpubError.keyError "X/a.opf") = false :=
  ⟨by decide, by decide, by decide, rfl⟩

/-- C9 amended: for every UncompressedEpub the pipeline consumes, either
every declared rootfile path is a key of its file map, or extraction of
the publications fails — with a lookup `KeyError` when the missing
rootfile itself is dereferenced, not necessarily a structural error. -/
theorem rootfile_presence_or_failure (parse : String → XmlTree) (h2t : String → String)
    (u : UncompressedEpub) :
    (∀ p ∈ u.rootfiles, FileMap.hasKey u.files p = true) ∨
    (∃ err, read_uncompressed_epubs parse h2t u = .error err) := by
  by_cases h : ∀ p ∈ u.rootfiles, FileMap.hasKey u.files p = true
  · exact Or.inl h
  · right
    push_neg at h
    obtain ⟨p, hp, hkey⟩ := h
    have hnone : FileMap.lookup u.files p = none := by
      rw [lookup_eq_none_iff_hasKey]
      simpa using hkey
    exact read_loop_absent parse h2t u.files u.rootfiles [] ⟨p, hp, hnone⟩

example : pathSuffix "a/b/chapter1.xhtml" = ".xhtml" := by decide
example : pathSuffix "mimetype" = "" := by decide
example : pathSuffix "a.XML" = ".XML" := by decide
example : pathSuffix "archive.tar.gz" = ".gz" := by decide
example : pathSuffix ".bashrc" = "" := by decide
example : pathSuffix "a." = "" := by decide
example : basename "META-INF/container.xml" = "container.xml" := by decide
example : basename "a/b/" = "" := by decide
example : splitSlash "a//b" = ["a", "", "b"] := by decide
example : joinSlash ["b", "c.opf"] = "b/c.opf" := by decide
